import Mathlib

/-!
Verification of the ATS coupled-cells MPC preconditioner and field-evaluator
spec against the source.  Each C++ function referenced by a claim is shallowly
embedded as a Lean definition; machine doubles are modelled as rationals (all
the operations involved are exact in both), and fallible paths return
`Except`.  Components of the repository that a claim needs but whose code is
not in the provided sources (the `MatrixMFD_Coupled` operator, the
`StrongMPC` base preconditioner application, and the
`SecondaryVariableFieldEvaluator` base change-tracking protocol) are modelled
from the natural-language spec and are marked as such in their doc comments.
-/

/- ## WRMLinearRelPerm (src/pks/flow/constitutive_relations/wrm/wrm_linear_relperm.hh) -/

namespace WRMLinearRelPerm

/-- `double k_relative(double s) { return s; }` -/
def k_relative (s : ℝ) : ℝ := s

/-- `double d_k_relative(double s) { return 1.0; }` -/
def d_k_relative (_s : ℝ) : ℝ := 1

end WRMLinearRelPerm

/- ## MDM_Bear (src/pks/transport/transport_amanzi/MDM_Bear.hh) -/

namespace MDM_Bear

/-- `bool is_valid() const { return (alphaL_ + alphaT_ != 0.0); }` -/
def is_valid (alphaL alphaT : ℚ) : Bool := alphaL + alphaT ≠ 0

end MDM_Bear

/- ## ThermalConductivityTwoPhaseEvaluator (src/unnamed/part_000, first unit) -/

namespace ThermalConductivityTwoPhaseEvaluator

/-- `EvaluateFieldPartialDerivative_`: the body is `ASSERT(0); // not
implemented, not yet needed` — the call aborts unconditionally, modelled as a
fatal `Except.error`; it never writes the result field. -/
def EvaluateFieldPartialDerivative (_wrt_key : String) (_result : List ℚ) :
    Except String (List ℚ) :=
  .error "ASSERT(0): not implemented"

end ThermalConductivityTwoPhaseEvaluator

/- ## ActiveLayerAverageTempEvaluator (src/unnamed/part_000, second unit) -/

namespace ActiveLayerAverageTempEvaluator

/-- `double trans_temp = 273.15 + 0.5*trans_width_;` -/
def trans_temp (trans_width : ℚ) : ℚ := 27315/100 + (1/2) * trans_width

/-- The accumulation loop of `EvaluateField_`: over all column cells,
`if (temp_c[0][i] >= trans_temp) { temp_sum += temp_c[0][i]; count += 1; }`,
returning the final `(temp_sum, count)`. -/
def sumCount (t : ℚ) (temps : List ℚ) : ℚ × ℕ :=
  temps.foldl (fun acc x => if x ≥ t then (acc.1 + x, acc.2 + 1) else acc) (0, 0)

/-- `EvaluateField_`: computes the transition temperature, accumulates the sum
and count of cell temperatures at or above it, and writes
`res_c[0][0] = count > 0 ? temp_sum/count : 0.0`.  Returns the single written
output value. -/
def EvaluateField (trans_width : ℚ) (temp_c : List ℚ) : ℚ :=
  let t := trans_temp trans_width
  let sc := sumCount t temp_c
  if sc.2 > 0 then sc.1 / sc.2 else 0

/-- `EvaluateFieldPartialDerivative_`: the body is empty (`{}`) — the call
returns normally and leaves the result field exactly as it was. -/
def EvaluateFieldPartialDerivative (_wrt_key : String) (result : List ℚ) :
    Except String (List ℚ) :=
  .ok result

end ActiveLayerAverageTempEvaluator

/- ## SecondaryVariableFieldEvaluator change-tracking (base class; code not
among the provided sources) -/

namespace SecondaryVariableFieldEvaluator

/-- The change-tracking state of a Secondary evaluator: the
`updated_once_` one-shot flag. -/
structure EvalState where
  updated_once : Bool
deriving DecidableEq, Repr

/-- Modelled from the spec: `SecondaryVariableFieldEvaluator::HasFieldChanged`
(the base-class staleness protocol; its code is not among the provided
sources): if any dependency reports changed, or if this is the first request
ever (`updated_once_ == false`), it recomputes its output and reports changed;
otherwise it reports unchanged and performs no recomputation.  The
`updated_once_` flag itself is managed by the derived evaluator, not here.
Returns (changed, state, number of recomputations performed). -/
def HasFieldChanged (deps_changed : Bool) (s : EvalState) :
    Bool × EvalState × ℕ :=
  if deps_changed || !s.updated_once then (true, s, 1) else (false, s, 0)

end SecondaryVariableFieldEvaluator

namespace ActiveLayerAverageTempEvaluator

/-- `ActiveLayerAverageTempEvaluator::HasFieldChanged`: calls the base-class
protocol, then `if (!updated_once_) { UpdateField_(S); updated_once_ = true;
return true; } return changed;`. -/
def HasFieldChanged (deps_changed : Bool)
    (s : SecondaryVariableFieldEvaluator.EvalState) :
    Bool × SecondaryVariableFieldEvaluator.EvalState × ℕ :=
  let r := SecondaryVariableFieldEvaluator.HasFieldChanged deps_changed s
  if !r.2.1.updated_once then (true, ⟨true⟩, r.2.2 + 1) else r

end ActiveLayerAverageTempEvaluator

/- ## MPCCoupledCells (src/src/pks/mpc/mpc_coupled_cells.cc) -/

namespace MPCCoupledCells

/-- setup: `dA_dy2_key_ = std::string("d")+A_key_+std::string("_d")+y2_key_;` -/
def dA_dy2_key (A_key y2_key : String) : String :=
  "d" ++ A_key ++ "_d" ++ y2_key

/-- setup: `dB_dy1_key_ = std::string("d")+B_key_+std::string("_d")+y1_key_;` -/
def dB_dy1_key (B_key y1_key : String) : String :=
  "d" ++ B_key ++ "_d" ++ y1_key

/-- The message of the `Errors::Message` thrown by `setup` when the debug-cell
arrays have different lengths. -/
def debugCellsErrorMsg : String :=
  "Debug cell and debug cell ranks must be equal length."

/-- The parts of the state built by `setup` that the debug-cell configuration
reaches: the debug cell list, the number of per-cell verbose objects, and
whether the coupled preconditioner was created (which happens only after the
debug-cell block completes). -/
structure SetupResult where
  dc : List ℤ
  numDebugVOs : ℕ
  preconBuilt : Bool
deriving DecidableEq, Repr

/-- The debug-cell handling of `setup`: if "debug cells" is present it is
copied into `dc_`; if "debug cell ranks" is also present, unequal lengths
throw (`amanzi_throw`) before anything else happens, and equal lengths build
one verbose object per rank; without ranks, `dcvo_` is resized to `dc_.size()`
copies of the PK's own verbose object.  Only afterwards is the coupled
preconditioner created. -/
def setup (debug_cells : Option (List ℤ)) (debug_cell_ranks : Option (List ℤ)) :
    Except String SetupResult :=
  match debug_cells with
  | none => Except.ok ⟨[], 0, true⟩
  | some dc =>
    match debug_cell_ranks with
    | none => Except.ok ⟨dc, dc.length, true⟩
    | some ranks =>
      if dc.length ≠ ranks.length then Except.error debugCellsErrorMsg
      else Except.ok ⟨dc, ranks.length, true⟩

/-- Modelled from the spec (§3, §4.4): the cell-local blocks of the
`MatrixMFD_Coupled` operator (its code is not among the provided sources):
the two diagonal sub-preconditioner values and the two off-diagonal coupling
values for one cell. -/
structure CellBlocks where
  Acc : ℚ
  Bcc : ℚ
  Ccc : ℚ
  Dcc : ℚ
deriving DecidableEq, Repr

/-- Modelled from the spec (§6): a sub-block preconditioner's `ApplyInverse`
on one cell — application of the inverse of its diagonal value. -/
def subApplyInverse (acc : ℚ) (r : ℚ) : ℚ := r / acc

/-- Modelled from the spec (§4.4, §8): `MatrixMFD_Coupled::ApplyInverse` on
one cell (its code is not among the provided sources) — solves the 2×2
cell-local block system `[Acc Ccc; Dcc Bcc] (y1, y2) = (r1, r2)` by Schur
complement elimination of the A block against the B block. -/
def coupledApplyInverseCell (bl : CellBlocks) (r : ℚ × ℚ) : ℚ × ℚ :=
  let schur := bl.Bcc - bl.Dcc * bl.Ccc / bl.Acc
  let y2 := (r.2 - bl.Dcc * r.1 / bl.Acc) / schur
  let y1 := (r.1 - bl.Ccc * y2) / bl.Acc
  (y1, y2)

/-- Modelled from the spec: the coupled operator's `ApplyInverse` over the
whole field, cell by cell. -/
def coupledApplyInverse (blocks : List CellBlocks) (u : List (ℚ × ℚ)) :
    List (ℚ × ℚ) :=
  List.zipWith coupledApplyInverseCell blocks u

/-- Modelled from the spec (§4.4): `StrongMPC::precon` (its code is not among
the provided sources) — applies the two sub-preconditioners independently to
the two components of the residual. -/
def strongMPC_precon (blocks : List CellBlocks) (u : List (ℚ × ℚ)) :
    List (ℚ × ℚ) :=
  List.zipWith
    (fun bl r => (subApplyInverse bl.Acc r.1, subApplyInverse bl.Bcc r.2))
    blocks u

/-- Forcing the off-diagonal coupling blocks of a cell to zero. -/
def zeroOffDiagonals (bl : CellBlocks) : CellBlocks :=
  { bl with Ccc := 0, Dcc := 0 }

/-- What `update_precon` produces past the sub-PK updates: the off-diagonal
cell blocks installed via `SetOffDiagonals` (the derivative fields scaled by
`1./h`), the `ComputeSchurComplement` dump flag chosen by the hard-coded
time-window check, and the values read by the debug-cell verbose branch. -/
structure UpdateResult where
  Ccc : List ℚ
  Dcc : List ℚ
  dumpSchur : Bool
  log : List ℚ
deriving DecidableEq, Repr

/-- The coupled branch (`!decoupled_`) of `MPCCoupledCells::update_precon`:
copies the two coupling-derivative fields into `Ccc`/`Dcc`; if the extreme
verbosity diagnostics are enabled, prints for each debug cell the unscaled
`Ccc`/`Dcc` entries and the two saturation-ice derivative fields; then scales
`Ccc` and `Dcc` by `1./h` and installs them as the off-diagonal blocks;
finally computes the Schur complement, with the diagnostic dump iff
`|t - 3.04746e+07| < 68690.3`. -/
def update_precon (verbose : Bool) (dc : List ℕ)
    (dA_dy2 dB_dy1 dsi_dp dsi_dT : List ℚ) (t h : ℚ) : UpdateResult :=
  let Ccc0 := dA_dy2
  let Dcc0 := dB_dy1
  let log :=
    if verbose then
      dc.foldr (fun c acc =>
        Ccc0.getD c 0 :: Dcc0.getD c 0 :: dsi_dp.getD c 0 :: dsi_dT.getD c 0 :: acc) []
    else []
  { Ccc := Ccc0.map (fun x => x * (1 / h)),
    Dcc := Dcc0.map (fun x => x * (1 / h)),
    dumpSchur := decide (|t - 30474600| < 686903 / 10),
    log := log }

/-- `MPCCoupledCells::precon`: in decoupled mode, returns
`StrongMPC::precon(u, Pu)` immediately (before any diagnostics); otherwise
optionally logs the residual at the debug cells, applies the coupled inverse
operator, and optionally logs the preconditioned update at the debug cells.
Returns the correction together with the logged values. -/
def precon (decoupled : Bool) (verbose : Bool) (dc : List ℕ)
    (blocks : List CellBlocks) (u : List (ℚ × ℚ)) :
    List (ℚ × ℚ) × List ℚ :=
  if decoupled then (strongMPC_precon blocks u, [])
  else
    let logPre :=
      if verbose then
        dc.foldr (fun c acc => (u.getD c (0, 0)).1 :: (u.getD c (0, 0)).2 :: acc) []
      else []
    let Pu := coupledApplyInverse blocks u
    let logPost :=
      if verbose then
        dc.foldr (fun c acc => (Pu.getD c (0, 0)).1 :: (Pu.getD c (0, 0)).2 :: acc) []
      else []
    (Pu, logPre ++ logPost)

/-- The operations `update_precon` performs against the State registry, in
program order. -/
inductive StateOp where
  | hasFieldDerivativeChanged (key wrt_key : String)
  | getFieldData (key : String)
deriving DecidableEq, Repr

/-- The State operations of the coupled branch of `update_precon`: request
the derivative of A w.r.t. y2 and of B w.r.t. y1 via
`HasFieldDerivativeChanged`, then read the two derivative fields; the
extreme-verbosity branch additionally reads the two saturation-ice derivative
fields. -/
def update_precon_stateOps (verbose : Bool)
    (A_key B_key y1_key y2_key : String) : List StateOp :=
  [StateOp.hasFieldDerivativeChanged A_key y2_key,
   StateOp.hasFieldDerivativeChanged B_key y1_key,
   StateOp.getFieldData (dA_dy2_key A_key y2_key),
   StateOp.getFieldData (dB_dy1_key B_key y1_key)] ++
  (if verbose then
    [StateOp.getFieldData "dsaturation_ice_dpressure",
     StateOp.getFieldData "dsaturation_ice_dtemperature"]
   else [])

end MPCCoupledCells

/- ## Theorems -/

/-- The accumulation loop of `EvaluateField_` computes the sum and count of
the cell temperatures meeting the threshold. -/
theorem sumCount_loop (t : ℚ) (temps : List ℚ) (s : ℚ) (c : ℕ) :
    temps.foldl (fun acc x => if x ≥ t then (acc.1 + x, acc.2 + 1) else acc) (s, c) =
      (s + (temps.filter (fun x => x ≥ t)).sum,
       c + (temps.filter (fun x => x ≥ t)).length) := by
  induction temps generalizing s c with
  | nil => simp
  | cons hd tl ih =>
    by_cases h : hd ≥ t
    · rw [List.foldl_cons, if_pos h, ih,
        List.filter_cons_of_pos (by simpa using h)]
      simp only [List.sum_cons, List.length_cons, Prod.mk.injEq]
      constructor
      · ring
      · omega
    · rw [List.foldl_cons, if_neg h, ih,
        List.filter_cons_of_neg (by simpa using h)]

/-- `sumCount` returns the sum and the count of the qualifying entries. -/
theorem sumCount_eq_filter (t : ℚ) (temps : List ℚ) :
    ActiveLayerAverageTempEvaluator.sumCount t temps =
      ((temps.filter (fun x => x ≥ t)).sum,
       (temps.filter (fun x => x ≥ t)).length) := by
  simpa using sumCount_loop t temps 0 0

/-- C3 counterexample: the active-layer average temperature evaluator is a
variant that does not implement its derivative path, yet invoking
`EvaluateFieldPartialDerivative_` on it does not signal any error — it
returns normally with the result field unchanged (here a nonzero field
`[7/2]` comes back exactly as it went in). -/
theorem c3_counterexample_silent_noop :
    ActiveLayerAverageTempEvaluator.EvaluateFieldPartialDerivative
        "temperature" [7/2] = Except.ok [7/2] ∧
    (ActiveLayerAverageTempEvaluator.EvaluateFieldPartialDerivative
        "temperature" [7/2]).isOk = true :=
  ⟨rfl, rfl⟩

/-- C3 (amended): the two-phase thermal conductivity evaluator signals a fatal
error (assertion failure) on every derivative request, never writing the
result; the active-layer average temperature evaluator, by contrast, does not
signal at all — its derivative body is a no-op that returns the result field
unchanged (and thus silently leaves whatever was there). -/
theorem c3_amended_derivative_paths (wrt_key : String) (result : List ℚ) :
    ThermalConductivityTwoPhaseEvaluator.EvaluateFieldPartialDerivative
        wrt_key result = Except.error "ASSERT(0): not implemented" ∧
    ActiveLayerAverageTempEvaluator.EvaluateFieldPartialDerivative
        wrt_key result = Except.ok result :=
  ⟨rfl, rfl⟩

/-- C4: when no cell temperature meets the transition temperature,
`EvaluateField_` writes exactly `0` (never NaN — the division is not taken);
when at least one cell qualifies it writes the arithmetic mean of the
qualifying temperatures. -/
theorem c4_empty_reduction (trans_width : ℚ) (temp_c : List ℚ) :
    ((∀ x ∈ temp_c, ¬ (x ≥ ActiveLayerAverageTempEvaluator.trans_temp trans_width)) →
      ActiveLayerAverageTempEvaluator.EvaluateField trans_width temp_c = 0) ∧
    ((∃ x ∈ temp_c, x ≥ ActiveLayerAverageTempEvaluator.trans_temp trans_width) →
      ActiveLayerAverageTempEvaluator.EvaluateField trans_width temp_c =
        (temp_c.filter
          (fun x => x ≥ ActiveLayerAverageTempEvaluator.trans_temp trans_width)).sum /
        (temp_c.filter
          (fun x => x ≥ ActiveLayerAverageTempEvaluator.trans_temp trans_width)).length) := by
  set t := ActiveLayerAverageTempEvaluator.trans_temp trans_width with ht
  constructor
  · intro hnone
    have hfilter : temp_c.filter (fun x => x ≥ t) = [] := by
      simp only [List.filter_eq_nil_iff, decide_eq_true_eq]
      exact fun x hx => hnone x hx
    simp [ActiveLayerAverageTempEvaluator.EvaluateField, sumCount_eq_filter, ← ht,
      hfilter]
  · rintro ⟨x, hx, hxt⟩
    have hmem : x ∈ temp_c.filter (fun x => x ≥ t) := by
      simp only [List.mem_filter, decide_eq_true_eq]
      exact ⟨hx, hxt⟩
    have hpos : 0 < (temp_c.filter (fun x => x ≥ t)).length :=
      List.length_pos_of_mem hmem
    simp [ActiveLayerAverageTempEvaluator.EvaluateField, sumCount_eq_filter, ← ht,
      hpos]

/-- Witness for C4: a column of temperatures `[1, 2]` (all below the
transition temperature for the default width `1/5`) averages to exactly `0`,
and a column `[280, 100, 290]` averages its two qualifying cells to `285`. -/
theorem c4_empty_reduction_witness :
    ActiveLayerAverageTempEvaluator.EvaluateField (1/5) [1, 2] = 0 ∧
    ActiveLayerAverageTempEvaluator.EvaluateField (1/5) [280, 100, 290] = 285 := by
  constructor
  · refine (c4_empty_reduction (1/5) [1, 2]).1 ?_
    intro x hx
    simp only [List.mem_cons, List.not_mem_nil, or_false] at hx
    rcases hx with h | h <;>
      simp [h, ActiveLayerAverageTempEvaluator.trans_temp] <;> norm_num
  · have h := (c4_empty_reduction (1/5) [280, 100, 290]).2
      ⟨280, by simp, by norm_num [ActiveLayerAverageTempEvaluator.trans_temp]⟩
    rw [h]
    norm_num [ActiveLayerAverageTempEvaluator.trans_temp]

/-- C9: for every saturation `s`, the linear rel-perm model returns
`k_relative s = s` and `d_k_relative s = 1`, and the declared derivative is
exactly the analytic derivative of the value capability. -/
theorem c9_linear_relperm_selfconsistent (s : ℝ) :
    WRMLinearRelPerm.k_relative s = s ∧
    WRMLinearRelPerm.d_k_relative s = 1 ∧
    HasDerivAt WRMLinearRelPerm.k_relative (WRMLinearRelPerm.d_k_relative s) s := by
  refine ⟨rfl, rfl, ?_⟩
  simpa [WRMLinearRelPerm.k_relative, WRMLinearRelPerm.d_k_relative] using
    (hasDerivAt_id s)

/-- C10: `is_valid` returns true iff `alphaL_ + alphaT_ ≠ 0`; consequently a
configuration with `alphaL_ = -alphaT_`, both nonzero, is reported invalid. -/
theorem c10_mdm_bear_is_valid (alphaL alphaT : ℚ) :
    (MDM_Bear.is_valid alphaL alphaT = true ↔ alphaL + alphaT ≠ 0) ∧
    (alphaL ≠ 0 → alphaT ≠ 0 → alphaL = -alphaT →
      MDM_Bear.is_valid alphaL alphaT = false) := by
  constructor
  · simp [MDM_Bear.is_valid]
  · intro _ _ hsum
    simp [MDM_Bear.is_valid, hsum]

/-- Witness for C10: at `alphaL = 1`, `alphaT = -1` both parameters are
nonzero yet the model is reported invalid. -/
theorem c10_mdm_bear_is_valid_witness :
    MDM_Bear.is_valid 1 (-1) = false :=
  (c10_mdm_bear_is_valid 1 (-1)).2 (by decide) (by decide) (by norm_num)

/-- Applying the coupled cell-local inverse with zeroed off-diagonal blocks
coincides with applying the two sub-preconditioners independently. -/
theorem coupledApplyInverseCell_zeroOffDiagonals (bl : MPCCoupledCells.CellBlocks)
    (r : ℚ × ℚ) :
    MPCCoupledCells.coupledApplyInverseCell (MPCCoupledCells.zeroOffDiagonals bl) r =
      (MPCCoupledCells.subApplyInverse bl.Acc r.1,
       MPCCoupledCells.subApplyInverse bl.Bcc r.2) := by
  simp [MPCCoupledCells.coupledApplyInverseCell, MPCCoupledCells.zeroOffDiagonals,
    MPCCoupledCells.subApplyInverse]

/-- Field-level version: `StrongMPC::precon` equals the coupled apply with the
off-diagonal blocks forced to zero. -/
theorem strongMPC_precon_eq_coupled_zero (blocks : List MPCCoupledCells.CellBlocks)
    (u : List (ℚ × ℚ)) :
    MPCCoupledCells.strongMPC_precon blocks u =
      MPCCoupledCells.coupledApplyInverse
        (blocks.map MPCCoupledCells.zeroOffDiagonals) u := by
  induction blocks generalizing u with
  | nil => simp [MPCCoupledCells.strongMPC_precon, MPCCoupledCells.coupledApplyInverse]
  | cons b bs ih =>
    cases u with
    | nil =>
      simp [MPCCoupledCells.strongMPC_precon, MPCCoupledCells.coupledApplyInverse]
    | cons r rs =>
      simp only [MPCCoupledCells.strongMPC_precon, MPCCoupledCells.coupledApplyInverse,
        List.map_cons, List.zipWith_cons_cons,
        coupledApplyInverseCell_zeroOffDiagonals]
      exact congrArg _ (ih rs)

/-- C1: for every residual, `precon` in explicit decoupled mode returns
exactly the correction that the coupled path returns when both off-diagonal
blocks are identically zero. -/
theorem c1_decoupled_mode_equivalence (verbose : Bool) (dc : List ℕ)
    (blocks : List MPCCoupledCells.CellBlocks) (u : List (ℚ × ℚ)) :
    (MPCCoupledCells.precon true verbose dc blocks u).1 =
      (MPCCoupledCells.precon false verbose dc
        (blocks.map MPCCoupledCells.zeroOffDiagonals) u).1 := by
  simp only [MPCCoupledCells.precon, if_true, if_false, Bool.true_eq_false]
  exact strongMPC_precon_eq_coupled_zero blocks u

/-- C2: the off-diagonal blocks installed by `update_precon` with step `h`
equal the raw derivative fields divided by `h`, and the blocks installed with
step `2h` are exactly half of those installed with `h`. -/
theorem c2_offdiagonal_scaling (verbose : Bool) (dc : List ℕ)
    (dA_dy2 dB_dy1 dsi_dp dsi_dT : List ℚ) (t h : ℚ) (hpos : 0 < h) :
    (MPCCoupledCells.update_precon verbose dc dA_dy2 dB_dy1 dsi_dp dsi_dT t h).Ccc =
        dA_dy2.map (fun x => x / h) ∧
    (MPCCoupledCells.update_precon verbose dc dA_dy2 dB_dy1 dsi_dp dsi_dT t h).Dcc =
        dB_dy1.map (fun x => x / h) ∧
    (MPCCoupledCells.update_precon verbose dc dA_dy2 dB_dy1 dsi_dp dsi_dT t (2 * h)).Ccc =
        ((MPCCoupledCells.update_precon verbose dc dA_dy2 dB_dy1 dsi_dp dsi_dT t h).Ccc).map
          (fun x => x / 2) ∧
    (MPCCoupledCells.update_precon verbose dc dA_dy2 dB_dy1 dsi_dp dsi_dT t (2 * h)).Dcc =
        ((MPCCoupledCells.update_precon verbose dc dA_dy2 dB_dy1 dsi_dp dsi_dT t h).Dcc).map
          (fun x => x / 2) := by
  have hdiv : (fun x : ℚ => x * (1 / h)) = fun x => x / h := by
    funext x; rw [mul_one_div]
  have hhalf : ((fun x : ℚ => x / 2) ∘ fun x => x / h) =
      fun x => x * (1 / (2 * h)) := by
    funext x
    show x / h / 2 = x * (1 / (2 * h))
    rw [mul_one_div, div_div, mul_comm]
  refine ⟨?_, ?_, ?_, ?_⟩ <;>
    simp only [MPCCoupledCells.update_precon, List.map_map, hdiv, hhalf]

/-- Witness for C2: at `h = 5` the derivative field `[10, 20]` is installed as
`[2, 4]`, and at `h = 10` as `[1, 2]`, exactly half. -/
theorem c2_offdiagonal_scaling_witness :
    (MPCCoupledCells.update_precon false [] [10, 20] [30] [] [] 0 5).Ccc = [2, 4] ∧
    (MPCCoupledCells.update_precon false [] [10, 20] [30] [] [] 0 (2 * 5)).Ccc = [1, 2] := by
  obtain ⟨h1, _, h3, _⟩ :=
    c2_offdiagonal_scaling false [] [10, 20] [30] [] [] 0 5 (by norm_num)
  constructor
  · rw [h1]; norm_num
  · rw [h3, h1]; norm_num

/-- C5: the first `HasFieldChanged` request ever (`updated_once_ == false`)
recomputes the output, returns changed, and sets the one-shot flag; once the
flag is set, a request with no dependency changed reports unchanged and
performs no recomputation. -/
theorem c5_first_update_forces_recompute (deps_changed : Bool)
    (s : SecondaryVariableFieldEvaluator.EvalState) :
    (s.updated_once = false →
      (ActiveLayerAverageTempEvaluator.HasFieldChanged deps_changed s).1 = true ∧
      1 ≤ (ActiveLayerAverageTempEvaluator.HasFieldChanged deps_changed s).2.2 ∧
      (ActiveLayerAverageTempEvaluator.HasFieldChanged deps_changed s).2.1.updated_once = true) ∧
    (s.updated_once = true → deps_changed = false →
      ActiveLayerAverageTempEvaluator.HasFieldChanged deps_changed s = (false, s, 0)) := by
  obtain ⟨u⟩ := s
  cases u <;> cases deps_changed <;>
    simp [ActiveLayerAverageTempEvaluator.HasFieldChanged,
      SecondaryVariableFieldEvaluator.HasFieldChanged]

/-- Witness for C5: a never-updated evaluator with no dependency change still
reports changed, recomputes, and flips its flag; afterwards the same request
is a no-op reporting unchanged. -/
theorem c5_first_update_forces_recompute_witness :
    ((ActiveLayerAverageTempEvaluator.HasFieldChanged false ⟨false⟩).1 = true ∧
     1 ≤ (ActiveLayerAverageTempEvaluator.HasFieldChanged false ⟨false⟩).2.2 ∧
     (ActiveLayerAverageTempEvaluator.HasFieldChanged false ⟨false⟩).2.1.updated_once = true) ∧
    ActiveLayerAverageTempEvaluator.HasFieldChanged false ⟨true⟩ = (false, ⟨true⟩, 0) :=
  ⟨(c5_first_update_forces_recompute false ⟨false⟩).1 rfl,
   (c5_first_update_forces_recompute false ⟨true⟩).2 rfl rfl⟩

/-- C6: `setup` with debug-cell and debug-rank arrays of unequal length
throws the configuration error before the preconditioner is created; with
equal-length arrays it succeeds and builds the preconditioner. -/
theorem c6_debug_arrays_length_check (dc ranks : List ℤ) :
    (dc.length ≠ ranks.length →
      MPCCoupledCells.setup (some dc) (some ranks) =
        Except.error MPCCoupledCells.debugCellsErrorMsg) ∧
    (dc.length = ranks.length →
      MPCCoupledCells.setup (some dc) (some ranks) =
        Except.ok ⟨dc, ranks.length, true⟩) := by
  constructor <;> intro h <;> simp [MPCCoupledCells.setup, h]

/-- Witness for C6: one debug cell with zero ranks is rejected; one debug cell
with one rank is accepted and the preconditioner is built. -/
theorem c6_debug_arrays_length_check_witness :
    MPCCoupledCells.setup (some [3]) (some []) =
      Except.error MPCCoupledCells.debugCellsErrorMsg ∧
    MPCCoupledCells.setup (some [3]) (some [1]) = Except.ok ⟨[3], 1, true⟩ :=
  ⟨(c6_debug_arrays_length_check [3] []).1 (by decide),
   (c6_debug_arrays_length_check [3] [1]).2 (by decide)⟩

/-- C7: the per-entity verbose diagnostics only read state and write log
output — the off-diagonal blocks installed by `update_precon` and the
correction returned by `precon` are identical with the diagnostics enabled
and disabled. -/
theorem c7_diagnostics_noninterference (decoupled : Bool) (dc : List ℕ)
    (dA_dy2 dB_dy1 dsi_dp dsi_dT : List ℚ) (t h : ℚ)
    (blocks : List MPCCoupledCells.CellBlocks) (u : List (ℚ × ℚ)) :
    ((MPCCoupledCells.update_precon true dc dA_dy2 dB_dy1 dsi_dp dsi_dT t h).Ccc =
       (MPCCoupledCells.update_precon false dc dA_dy2 dB_dy1 dsi_dp dsi_dT t h).Ccc ∧
     (MPCCoupledCells.update_precon true dc dA_dy2 dB_dy1 dsi_dp dsi_dT t h).Dcc =
       (MPCCoupledCells.update_precon false dc dA_dy2 dB_dy1 dsi_dp dsi_dT t h).Dcc) ∧
    (MPCCoupledCells.precon decoupled true dc blocks u).1 =
      (MPCCoupledCells.precon decoupled false dc blocks u).1 := by
  refine ⟨⟨rfl, rfl⟩, ?_⟩
  cases decoupled <;> simp [MPCCoupledCells.precon]

/-- C8: the derivative fields are named exactly `d<output>_d<dependency>`, and
in the State-operation trace of `update_precon` every read of a coupling
derivative field is preceded by the matching `HasFieldDerivativeChanged`
request. -/
theorem c8_derivative_key_and_request_order (verbose : Bool)
    (A_key B_key y1_key y2_key : String) :
    (MPCCoupledCells.dA_dy2_key A_key y2_key = "d" ++ A_key ++ "_d" ++ y2_key ∧
     MPCCoupledCells.dB_dy1_key B_key y1_key = "d" ++ B_key ++ "_d" ++ y1_key) ∧
    (∀ i : ℕ,
      (MPCCoupledCells.update_precon_stateOps verbose A_key B_key y1_key y2_key)[i]? =
          some (MPCCoupledCells.StateOp.getFieldData
            (MPCCoupledCells.dA_dy2_key A_key y2_key)) →
      ∃ j, j < i ∧
        (MPCCoupledCells.update_precon_stateOps verbose A_key B_key y1_key y2_key)[j]? =
          some (MPCCoupledCells.StateOp.hasFieldDerivativeChanged A_key y2_key)) ∧
    (∀ i : ℕ,
      (MPCCoupledCells.update_precon_stateOps verbose A_key B_key y1_key y2_key)[i]? =
          some (MPCCoupledCells.StateOp.getFieldData
            (MPCCoupledCells.dB_dy1_key B_key y1_key)) →
      ∃ j, j < i ∧
        (MPCCoupledCells.update_precon_stateOps verbose A_key B_key y1_key y2_key)[j]? =
          some (MPCCoupledCells.StateOp.hasFieldDerivativeChanged B_key y1_key)) := by
  refine ⟨⟨rfl, rfl⟩, ?_, ?_⟩
  · intro i hi
    match i with
    | 0 => simp [MPCCoupledCells.update_precon_stateOps] at hi
    | 1 => simp [MPCCoupledCells.update_precon_stateOps] at hi
    | (n + 2) =>
      exact ⟨0, by omega, by simp [MPCCoupledCells.update_precon_stateOps]⟩
  · intro i hi
    match i with
    | 0 => simp [MPCCoupledCells.update_precon_stateOps] at hi
    | 1 => simp [MPCCoupledCells.update_precon_stateOps] at hi
    | (n + 2) =>
      exact ⟨1, by omega, by simp [MPCCoupledCells.update_precon_stateOps]⟩

/-- Witness for C8: with output key "water_content" and dependency key
"temperature", the derivative field is "dwater_content_dtemperature", and its
read at trace position 2 is preceded by the matching request. -/
theorem c8_derivative_key_and_request_order_witness :
    MPCCoupledCells.dA_dy2_key "water_content" "temperature" =
      "dwater_content_dtemperature" ∧
    ∃ j, j < 2 ∧
      (MPCCoupledCells.update_precon_stateOps false
        "water_content" "energy" "pressure" "temperature")[j]? =
        some (MPCCoupledCells.StateOp.hasFieldDerivativeChanged
          "water_content" "temperature") := by
  obtain ⟨⟨h1, _⟩, h2, _⟩ :=
    c8_derivative_key_and_request_order false
      "water_content" "energy" "pressure" "temperature"
  exact ⟨by rw [h1]; rfl, h2 2 rfl⟩
